import Mathlib

/-!
# Verification of the `evolving-equation` genetic algorithm

A shallow embedding of `src/index.ts` (classes `SafeEvaluator` and
`GeneticAlgorithm`).  JavaScript numbers are modelled by `ℚ`; every call to
`Math.random()` is modelled by an explicit oracle argument: a comparison
`Math.random() < rate` becomes a supplied rational draw compared against the
rate, and an index draw `Math.floor(Math.random() * n)` becomes a supplied
natural reduced modulo `n` (`randIdx`).  Strings are modelled as `List Char`.

The third-party `expr-eval` parser (consumed through
`this.parser.parse(...).evaluate({})`) is not part of the repository; it is
modelled from the spec's collaborator contract (§4.1/§6): a deterministic
arithmetic evaluator over digits, `+ - * /` and parentheses that yields a
finite number or an invalid signal (non-finite results, e.g. division by
zero, are rejected).
-/

namespace EvolvingEquation

/-- `Math.floor(Math.random() * n)`: an arbitrary draw `d` reduced into
`[0, n)`; for `n = 0` the JavaScript expression evaluates to `0`. -/
def randIdx (d n : ℕ) : ℕ := if n = 0 then 0 else d % n

/-! ## Configuration (`Config`, `DEFAULT_CONFIG`, constructor merge) -/

structure Config where
  populationSize : ℕ
  target : ℚ
  maxGenerations : ℕ
  mutationRate : ℚ
  crossoverRate : ℚ
  elitismCount : ℕ
  tournamentSize : ℕ
  maxEquationLength : ℕ
deriving DecidableEq

def DEFAULT_CONFIG : Config :=
  { populationSize := 50
    target := 42
    maxGenerations := 1000
    mutationRate := 1/10
    crossoverRate := 7/10
    elitismCount := 5
    tournamentSize := 3
    maxEquationLength := 20 }

/-- A `Partial<Config>` argument to the `GeneticAlgorithm` constructor. -/
structure PartialConfig where
  populationSize : Option ℕ := none
  target : Option ℚ := none
  maxGenerations : Option ℕ := none
  mutationRate : Option ℚ := none
  crossoverRate : Option ℚ := none
  elitismCount : Option ℕ := none
  tournamentSize : Option ℕ := none
  maxEquationLength : Option ℕ := none

/-- The constructor body `this.config = { ...DEFAULT_CONFIG, ...config }`:
a plain field-wise merge with the defaults.  The source performs no
validation of the resulting configuration. -/
def mergeConfig (p : PartialConfig) : Config :=
  { populationSize := p.populationSize.getD DEFAULT_CONFIG.populationSize
    target := p.target.getD DEFAULT_CONFIG.target
    maxGenerations := p.maxGenerations.getD DEFAULT_CONFIG.maxGenerations
    mutationRate := p.mutationRate.getD DEFAULT_CONFIG.mutationRate
    crossoverRate := p.crossoverRate.getD DEFAULT_CONFIG.crossoverRate
    elitismCount := p.elitismCount.getD DEFAULT_CONFIG.elitismCount
    tournamentSize := p.tournamentSize.getD DEFAULT_CONFIG.tournamentSize
    maxEquationLength := p.maxEquationLength.getD DEFAULT_CONFIG.maxEquationLength }

/-! ## Agents -/

structure Agent where
  chromosome : List Char
  fitness : ℚ
  solution : ℚ
  equation : List Char
deriving DecidableEq

instance : Inhabited Agent := ⟨⟨[], 0, 0, []⟩⟩

/-! ## The expression evaluator

`SafeEvaluator.cleanExpression` / `isValidExpression` are translated from
the source; the inner `expr-eval` parse/evaluate step is modelled from the
spec. -/

def isOperator (c : Char) : Bool := c = '+' || c = '-' || c = '*' || c = '/'

def isDigitChar (c : Char) : Bool :=
  c = '0' || c = '1' || c = '2' || c = '3' || c = '4' ||
  c = '5' || c = '6' || c = '7' || c = '8' || c = '9'

/-- Characters surviving `cleanExpression`: the first regex keeps
`[0-9+\-*/().\s]`, the second removes all whitespace. -/
def isAllowedChar (c : Char) : Bool :=
  isDigitChar c || isOperator c || c = '(' || c = ')' || c = '.'

/-- `SafeEvaluator.cleanExpression`: drop every character outside
`0-9 + - * / ( ) .` (whitespace is kept by the first replace and removed by
the second, so the net effect is a single filter). -/
def cleanExpression (e : List Char) : List Char := e.filter isAllowedChar

/-- The parenthesis-balance loop of `isValidExpression`: running balance,
`(` increments, `)` decrements, any negative prefix balance fails, and the
final balance must be zero. -/
def parenBalanceOk : List Char → Int → Bool
  | [], bal => bal = 0
  | c :: cs, bal =>
    let bal' : Int := if c = '(' then bal + 1 else if c = ')' then bal - 1 else bal
    if bal' < 0 then false else parenBalanceOk cs bal'

/-- The regex test `/[+\-*\/]{2,}/.test(expr)`: some two adjacent
characters are both operators. -/
def hasConsecutiveOperators : List Char → Bool
  | a :: b :: rest => (isOperator a && isOperator b) || hasConsecutiveOperators (b :: rest)
  | _ => false

/-- `SafeEvaluator.isValidExpression`. -/
def isValidExpression (e : List Char) : Bool :=
  if e.isEmpty then false
  else parenBalanceOk e 0 && !hasConsecutiveOperators e

/-! ### Modelled from the spec: the `expr-eval` collaborator

The repository consumes the third-party `expr-eval` parser; per spec §4.1/§6
it deterministically maps an expression string to a finite numeric value or
an invalid signal.  We model the standard arithmetic grammar (multi-digit
numbers, `+ - * /` with the usual precedence, parentheses, unary minus);
a division producing a non-finite value (denominator zero) is rejected,
matching the `isFinite` check in `SafeEvaluator.evaluate`. -/

inductive Tok where
  | num (n : ℕ)
  | add | sub | mul | div | lpar | rpar
deriving DecidableEq

/-- Modelled from the spec: tokenizer for the arithmetic grammar.  Digit
runs form numerals; any character outside the grammar fails. -/
def tokenizeAux : List Char → Option ℕ → List Tok → Option (List Tok)
  | [], acc, out =>
    match acc with
    | none => some out.reverse
    | some n => some (out.reverse ++ [Tok.num n])
  | c :: cs, acc, out =>
    if isDigitChar c then
      let d := c.toNat - '0'.toNat
      tokenizeAux cs (some ((acc.getD 0) * 10 + d)) out
    else
      let out' := match acc with
        | none => out
        | some n => Tok.num n :: out
      if c = '+' then tokenizeAux cs none (Tok.add :: out')
      else if c = '-' then tokenizeAux cs none (Tok.sub :: out')
      else if c = '*' then tokenizeAux cs none (Tok.mul :: out')
      else if c = '/' then tokenizeAux cs none (Tok.div :: out')
      else if c = '(' then tokenizeAux cs none (Tok.lpar :: out')
      else if c = ')' then tokenizeAux cs none (Tok.rpar :: out')
      else none

def tokenize (e : List Char) : Option (List Tok) := tokenizeAux e none []

mutual

/-- Modelled from the spec: additive level of the arithmetic grammar. -/
def parseE : ℕ → List Tok → Option (ℚ × List Tok)
  | 0, _ => none
  | f + 1, ts =>
    match parseT f ts with
    | none => none
    | some (v, r) => parseESfx f v r

/-- Modelled from the spec: trailing `+ term` / `- term` chain. -/
def parseESfx : ℕ → ℚ → List Tok → Option (ℚ × List Tok)
  | 0, _, _ => none
  | f + 1, v, Tok.add :: ts =>
    match parseT f ts with
    | none => none
    | some (w, r) => parseESfx f (v + w) r
  | f + 1, v, Tok.sub :: ts =>
    match parseT f ts with
    | none => none
    | some (w, r) => parseESfx f (v - w) r
  | _ + 1, v, ts => some (v, ts)

/-- Modelled from the spec: multiplicative level of the grammar. -/
def parseT : ℕ → List Tok → Option (ℚ × List Tok)
  | 0, _ => none
  | f + 1, ts =>
    match parseA f ts with
    | none => none
    | some (v, r) => parseTSfx f v r

/-- Modelled from the spec: trailing `* atom` / `/ atom` chain; division by
zero yields the invalid signal (non-finite result). -/
def parseTSfx : ℕ → ℚ → List Tok → Option (ℚ × List Tok)
  | 0, _, _ => none
  | f + 1, v, Tok.mul :: ts =>
    match parseA f ts with
    | none => none
    | some (w, r) => parseTSfx f (v * w) r
  | f + 1, v, Tok.div :: ts =>
    match parseA f ts with
    | none => none
    | some (w, r) => if w = 0 then none else parseTSfx f (v / w) r
  | _ + 1, v, ts => some (v, ts)

/-- Modelled from the spec: atoms — numerals, parenthesised expressions,
unary minus. -/
def parseA : ℕ → List Tok → Option (ℚ × List Tok)
  | 0, _ => none
  | _ + 1, Tok.num n :: ts => some ((n : ℚ), ts)
  | f + 1, Tok.sub :: ts =>
    match parseA f ts with
    | none => none
    | some (v, r) => some (-v, r)
  | f + 1, Tok.lpar :: ts =>
    match parseE f ts with
    | some (v, Tok.rpar :: r) => some (v, r)
    | _ => none
  | _ + 1, _ => none

end

/-- Modelled from the spec: the external parser's `parse(...).evaluate({})`
on an already cleaned and validated expression. -/
def parseEval (e : List Char) : Option ℚ :=
  match tokenize e with
  | none => none
  | some ts =>
    match parseE (3 * ts.length + 8) ts with
    | some (v, []) => some v
    | _ => none

/-- `SafeEvaluator.evaluate`: clean, validate, then parse and evaluate;
any failure (including a non-finite result inside the parser model)
returns `none` — the JavaScript `catch` and `isFinite` paths. -/
def evaluate (e : List Char) : Option ℚ :=
  let cleaned := cleanExpression e
  if isValidExpression cleaned then parseEval cleaned else none

/-! ## Fitness -/

/-- `GeneticAlgorithm.calculateFitness`. -/
def calculateFitness (cfg : Config) (solution : ℚ) : ℚ :=
  let error := |solution - cfg.target|
  if error = 0 then 1 else 1 / (1 + error)

/-- `GeneticAlgorithm.createAgentFromChromosome`:
`solution = evaluate(chromosome) ?? 0`, fitness from `calculateFitness`. -/
def createAgentFromChromosome (cfg : Config) (chromosome : List Char) : Agent :=
  let solution := (evaluate chromosome).getD 0
  { chromosome := chromosome
    fitness := calculateFitness cfg solution
    solution := solution
    equation := chromosome }

/-! ## Random equation generation -/

def operators : List Char := ['+', '-', '*', '/']

def digits : List Char := ['0', '1', '2', '3', '4', '5', '6', '7', '8', '9']

/-- Oracle for one `generateRandomEquation` call: `lenDraw` models the
length draw; `opDraw i` models the `Math.random() > 0.3` comparison at loop
step `i`; `charDraw i` models the character-index draw at step `i` (the
final fix-up, when taken, uses the draw at index `length`). -/
structure AgentDraws where
  lenDraw : ℕ
  opDraw : ℕ → Bool
  charDraw : ℕ → ℕ

/-- The loop body of `generateRandomEquation` plus its final fix-up, on
`(step index, remaining steps, expectingOperator)`.  Note the source's
fix-up `if (expectingOperator) equation += digit` appends the extra digit
when the last character was a digit (and appends nothing after a trailing
operator). -/
def genChars (opDraw : ℕ → Bool) (charDraw : ℕ → ℕ) : ℕ → ℕ → Bool → List Char
  | i, 0, expectingOperator =>
    if expectingOperator then [digits.getD (randIdx (charDraw i) 10) '0'] else []
  | i, k + 1, expectingOperator =>
    if expectingOperator && opDraw i then
      operators.getD (randIdx (charDraw i) 4) '+' :: genChars opDraw charDraw (i + 1) k false
    else
      digits.getD (randIdx (charDraw i) 10) '0' :: genChars opDraw charDraw (i + 1) k true

/-- `GeneticAlgorithm.generateRandomEquation`:
`length = Math.floor(Math.random() * (maxEquationLength - 3)) + 3`, then the
digit/operator loop with the trailing fix-up. -/
def generateRandomEquation (cfg : Config) (d : AgentDraws) : List Char :=
  let length := randIdx d.lenDraw (cfg.maxEquationLength - 3) + 3
  genChars d.opDraw d.charDraw 0 length false

/-- `GeneticAlgorithm.createRandomAgent`. -/
def createRandomAgent (cfg : Config) (d : AgentDraws) : Agent :=
  createAgentFromChromosome cfg (generateRandomEquation cfg d)

/-- `GeneticAlgorithm.initializePopulation`: `populationSize` fresh random
agents. -/
def initializePopulation (cfg : Config) (d : ℕ → AgentDraws) : List Agent :=
  (List.range cfg.populationSize).map fun i => createRandomAgent cfg (d i)

/-! ## Fitness evaluation pass -/

/-- The per-agent body of `evaluateFitness`: re-evaluate the chromosome and
recompute the fitness in place. -/
def reEvaluate (cfg : Config) (a : Agent) : Agent :=
  let solution := (evaluate a.chromosome).getD 0
  { a with solution := solution, fitness := calculateFitness cfg solution }

/-- The comparator `(a, b) => b.fitness - a.fitness`: descending fitness. -/
def byFitnessDesc (a b : Agent) : Prop := b.fitness ≤ a.fitness

instance : DecidableRel byFitnessDesc :=
  fun a b => inferInstanceAs (Decidable (b.fitness ≤ a.fitness))

instance : IsTotal Agent byFitnessDesc := ⟨fun a b => le_total b.fitness a.fitness⟩

instance : IsTrans Agent byFitnessDesc := ⟨fun _ _ _ h₁ h₂ => le_trans h₂ h₁⟩

/-- `GeneticAlgorithm.evaluateFitness`: recompute each agent's solution and
fitness, sort descending by fitness, and push `population[0].fitness` onto
the best-fitness history.  (On an empty population the source would crash
reading `population[0].fitness`; the model leaves the history unchanged
there, and no theorem below exercises that branch.) -/
def evaluateFitness (cfg : Config) (pop : List Agent) (hist : List ℚ) :
    List Agent × List ℚ :=
  let sorted := List.insertionSort byFitnessDesc (pop.map (reEvaluate cfg))
  (sorted, match sorted with
           | [] => hist
           | best :: _ => hist ++ [best.fitness])

/-! ## Selection, elitism, crossover, mutation -/

/-- `GeneticAlgorithm.tournamentSelection`: sample `tournamentSize` agents
with replacement (index draw `idxDraw i` per pick), then the `reduce` keeps
`current` over `best` exactly when `current.fitness > best.fitness`.
(On an empty population the source would crash; the model's `getD` default
is never exercised by the theorems below.) -/
def tournamentSelection (cfg : Config) (pop : List Agent) (idxDraw : ℕ → ℕ) : Agent :=
  let tournament := (List.range cfg.tournamentSize).map fun i =>
    pop.getD (randIdx (idxDraw i) pop.length) default
  match tournament with
  | [] => default
  | t :: ts => ts.foldl (fun best current =>
      if best.fitness < current.fitness then current else best) t

/-- `GeneticAlgorithm.cloneAgent`: a field-wise copy. -/
def cloneAgent (a : Agent) : Agent :=
  { chromosome := a.chromosome
    fitness := a.fitness
    solution := a.solution
    equation := a.equation }

/-- `GeneticAlgorithm.selectElite`: clone the current top `elitismCount`. -/
def selectElite (cfg : Config) (pop : List Agent) : List Agent :=
  (pop.take cfg.elitismCount).map cloneAgent

/-- First candidate child of `crossover`:
`parent1.chromosome.substring(0, point1) + parent2.chromosome.substring(point2)`,
scored through the evaluate→fitness pipeline. -/
def crossoverChild1 (cfg : Config) (p1 p2 : Agent) (d1 d2 : ℕ) : Agent :=
  createAgentFromChromosome cfg
    (p1.chromosome.take (randIdx d1 p1.chromosome.length) ++
     p2.chromosome.drop (randIdx d2 p2.chromosome.length))

/-- Second candidate child of `crossover`:
`parent2.chromosome.substring(0, point2) + parent1.chromosome.substring(point1)`. -/
def crossoverChild2 (cfg : Config) (p1 p2 : Agent) (d1 d2 : ℕ) : Agent :=
  createAgentFromChromosome cfg
    (p2.chromosome.take (randIdx d2 p2.chromosome.length) ++
     p1.chromosome.drop (randIdx d1 p1.chromosome.length))

/-- `GeneticAlgorithm.crossover`: build both candidates and
`return child1.fitness > child2.fitness ? child1 : child2`. -/
def crossover (cfg : Config) (p1 p2 : Agent) (d1 d2 : ℕ) : Agent :=
  let child1 := crossoverChild1 cfg p1 p2 d1 d2
  let child2 := crossoverChild2 cfg p1 p2 d1 d2
  if child2.fitness < child1.fitness then child1 else child2

/-- Oracle for one `mutate` call: `typeDraw` models the `mutationType`
draw; `idxDraw` the position draw; `setDraw` the `Math.random() > 0.5`
operator-vs-digit set choice; `charDraw` the character-index draw. -/
structure MutDraws where
  typeDraw : ℚ
  idxDraw : ℕ
  setDraw : Bool
  charDraw : ℕ

/-- The chromosome edit performed by `GeneticAlgorithm.mutate`:
substitute (`mutationType < 0.33`), insert (`< 0.66`), or delete — the
delete arm touches the chromosome only when its length exceeds 3. -/
def mutateChromosome (chr : List Char) (d : MutDraws) : List Char :=
  if d.typeDraw < 33/100 then
    let index := randIdx d.idxDraw chr.length
    let charSet := if d.setDraw then operators else digits
    chr.set index (charSet.getD (randIdx d.charDraw charSet.length) '+')
  else if d.typeDraw < 66/100 then
    let index := randIdx d.idxDraw chr.length
    let charSet := if d.setDraw then operators else digits
    List.insertIdx index (charSet.getD (randIdx d.charDraw charSet.length) '+') chr
  else
    if 3 < chr.length then chr.eraseIdx (randIdx d.idxDraw chr.length)
    else chr

inductive MutOp where
  | substitute | insert | delete
deriving DecidableEq

/-- Which of the three edit operations a `mutate` call actually applies,
following the source's branch structure: `none` exactly when the delete
branch is drawn but the chromosome is not longer than 3 characters (the
source then performs no edit). -/
def mutateAppliedOp (a : Agent) (d : MutDraws) : Option MutOp :=
  if d.typeDraw < 33/100 then some .substitute
  else if d.typeDraw < 66/100 then some .insert
  else if 3 < a.chromosome.length then some .delete
  else none

/-- `GeneticAlgorithm.mutate`: apply the chromosome edit, then recompute
`solution` via the evaluator (`?? 0`) and `fitness` via
`calculateFitness`. -/
def mutate (cfg : Config) (a : Agent) (d : MutDraws) : Agent :=
  let newChromosome := mutateChromosome a.chromosome d
  let solution := (evaluate newChromosome).getD 0
  { chromosome := newChromosome
    equation := newChromosome
    solution := solution
    fitness := calculateFitness cfg solution }

/-! ## The generation step and the evolution loop -/

/-- Oracle for producing one offspring in the inner `while` loop:
`crossDraw` models `Math.random() < crossoverRate`; `t1`/`t2` the two
tournaments' index draws; `point1`/`point2` the crossover cut draws;
`mutDraw` models `Math.random() < mutationRate`; `mut` the mutation
draws. -/
structure OffspringDraws where
  crossDraw : ℚ
  t1 : ℕ → ℕ
  t2 : ℕ → ℕ
  point1 : ℕ
  point2 : ℕ
  mutDraw : ℚ
  mutDraws : MutDraws

/-- One iteration of the offspring `while` loop: two tournament parents,
crossover with probability `crossoverRate` (else clone of `parent1`), then
mutation with probability `mutationRate`. -/
def makeOffspring (cfg : Config) (pop : List Agent) (d : OffspringDraws) : Agent :=
  let parent1 := tournamentSelection cfg pop d.t1
  let parent2 := tournamentSelection cfg pop d.t2
  let offspring :=
    if d.crossDraw < cfg.crossoverRate then crossover cfg parent1 parent2 d.point1 d.point2
    else cloneAgent parent1
  if d.mutDraw < cfg.mutationRate then mutate cfg offspring d.mutDraws else offspring

/-- Oracle for one generation transition: draws for the `j`-th offspring. -/
structure GenDraws where
  off : ℕ → OffspringDraws

/-- The new-population construction of one generation of `evolve`: the
elite clones followed by offspring produced until the population reaches
`populationSize` (each `while` iteration appends exactly one agent, so
`populationSize - elite.length` offspring are produced). -/
def buildNewPopulation (cfg : Config) (pop : List Agent) (d : GenDraws) : List Agent :=
  let elite := selectElite cfg pop
  elite ++ (List.range (cfg.populationSize - elite.length)).map
    fun j => makeOffspring cfg pop (d.off j)

/-- Oracle for one `evolve` run: per-seed-agent draws and per-generation
draws. -/
structure RunDraws where
  init : ℕ → AgentDraws
  gen : ℕ → GenDraws

/-- The `for` loop of `evolve` on (remaining generations, generation index,
current evaluated population, history).  Each iteration: return
`population[0]` if its fitness reaches `0.99`; otherwise build, evaluate and
sort the next generation.  When the budget is exhausted the loop falls
through to `return this.getBestAgent()`, i.e. `population[0]` or `null`. -/
def evolveLoop (cfg : Config) (d : ℕ → GenDraws) :
    ℕ → ℕ → List Agent → List ℚ → Option Agent × List ℚ × List Agent
  | 0, _, pop, hist => (pop.head?, hist, pop)
  | fuel + 1, g, best :: rest, hist =>
    if 99/100 ≤ best.fitness then (some best, hist, best :: rest)
    else
      let stepped := evaluateFitness cfg (buildNewPopulation cfg (best :: rest) (d g)) hist
      evolveLoop cfg d fuel (g + 1) stepped.1 stepped.2
  | fuel + 1, g, [], hist =>
    let stepped := evaluateFitness cfg (buildNewPopulation cfg [] (d g)) hist
    evolveLoop cfg d fuel (g + 1) stepped.1 stepped.2

/-- `GeneticAlgorithm.evolve`: seed, evaluate, loop.  Returns the result
(`Agent` or `null`), the best-fitness history, and the final population. -/
def evolve (cfg : Config) (d : RunDraws) : Option Agent × List ℚ × List Agent :=
  let seeded := evaluateFitness cfg (initializePopulation cfg d.init) []
  evolveLoop cfg d.gen cfg.maxGenerations 0 seeded.1 seeded.2

/-! ## Concrete instances used by witnesses and counterexamples -/

/-- A small concrete configuration: two individuals, one elite slot, no
crossover, no mutation, one generation. -/
def cfgW : Config :=
  { populationSize := 2
    target := 42
    maxGenerations := 1
    mutationRate := 0
    crossoverRate := 0
    elitismCount := 1
    tournamentSize := 1
    maxEquationLength := 20 }

/-- A concrete two-agent population: `"42"` (solution 42, fitness 1) and
`"1"` (solution 1, fitness 1/42), already evaluated and sorted. -/
def popW : List Agent :=
  [createAgentFromChromosome cfgW ['4', '2'], createAgentFromChromosome cfgW ['1']]

/-- Concrete seeding draws: every agent draws length 3 and only digit 5s,
producing chromosome `"5555"`. -/
def dW : ℕ → AgentDraws := fun _ => ⟨0, fun _ => false, fun _ => 5⟩

/-- Concrete generation draws: no crossover (`crossDraw = 1`), no mutation
(`mutDraw = 1`), all tournaments and cut points draw index 0. -/
def gW : GenDraws := ⟨fun _ => ⟨1, fun _ => 0, fun _ => 0, 0, 0, 1, ⟨1, 0, false, 0⟩⟩⟩

/-- A parent agent with chromosome `"2++2"` (rejected by the evaluator:
consecutive operators). -/
def agentPlus2 : Agent := createAgentFromChromosome DEFAULT_CONFIG ['2', '+', '+', '2']

/-- A parent agent with chromosome `"1++1"` (rejected by the evaluator). -/
def agentPlus1 : Agent := createAgentFromChromosome DEFAULT_CONFIG ['1', '+', '+', '1']

/-- Equation-generation draws for C4: at step 2 (and only there) the
`Math.random() > 0.3` comparison succeeds, so the loop places digit,
digit, operator. -/
def c4OpDraw : ℕ → Bool := fun i => i = 2

/-- Character draws for C4: digit `1`, digit `2`, then operator index 0
(`'+'`). -/
def c4CharDraw : ℕ → ℕ := fun i => if i = 0 then 1 else if i = 1 then 2 else 0

/-- An evaluated agent with the minimal-length chromosome `"1+2"`. -/
def agent13 : Agent := createAgentFromChromosome DEFAULT_CONFIG ['1', '+', '2']

/-- Mutation draws selecting the delete branch (`mutationType = 0.7`). -/
def mutDelDraws : MutDraws := ⟨7/10, 0, false, 0⟩

/-- Mutation draws selecting the substitute branch (`mutationType = 0.1`),
substituting position 0 with `operators[0] = '+'`. -/
def mutSubDraws : MutDraws := ⟨1/10, 0, true, 0⟩

/-- Offspring draws used in concrete runs: no crossover, no mutation, all
index draws 0. -/
def offDrawsW : OffspringDraws := ⟨1, fun _ => 0, fun _ => 0, 0, 0, 1, ⟨1, 0, false, 0⟩⟩

/-- Concrete run draws: every seeded agent is `"5555"`, every offspring a
plain tournament clone. -/
def rdW : RunDraws := ⟨dW, fun _ => ⟨fun _ => offDrawsW⟩⟩

/-- The configuration of the zero-generation scenario:
`maxGenerations = 0`, one individual. -/
def cfgC8 : Config := { DEFAULT_CONFIG with maxGenerations := 0, populationSize := 1 }

/-- A partial configuration that violates every §3 invariant the claim
lists: `elitismCount ≥ populationSize`, `mutationRate > 1`,
`tournamentSize > populationSize`. -/
def badPartialConfig : PartialConfig :=
  { populationSize := some 3
    maxGenerations := some 1
    mutationRate := some 2
    elitismCount := some 7
    tournamentSize := some 9 }

/-- The configuration the constructor produces from `badPartialConfig`. -/
def badConfig : Config :=
  { populationSize := 3
    target := 42
    maxGenerations := 1
    mutationRate := 2
    crossoverRate := 7/10
    elitismCount := 7
    tournamentSize := 9
    maxEquationLength := 20 }

/-! ## Helper lemmas -/

/-- The two arms of `calculateFitness` agree with the single closed form
`1 / (1 + |solution - target|)` (the guard only avoids a needless
division). -/
theorem calculateFitness_eq (cfg : Config) (s : ℚ) :
    calculateFitness cfg s = 1 / (1 + |s - cfg.target|) := by
  by_cases h : |s - cfg.target| = 0 <;> simp [calculateFitness, h]

/-! ## C1 -/

/-- C1: the fitness function returns exactly `1` when `solution = target`
and `1 / (1 + |solution - target|)` otherwise; the value is strictly
positive and at most `1`, and it is monotonically (indeed strictly)
decreasing in the absolute error. -/
theorem c1_fitness_function_correct (cfg : Config) (s s₁ s₂ : ℚ) :
    (s = cfg.target → calculateFitness cfg s = 1) ∧
    (s ≠ cfg.target → calculateFitness cfg s = 1 / (1 + |s - cfg.target|)) ∧
    0 < calculateFitness cfg s ∧
    calculateFitness cfg s ≤ 1 ∧
    (|s₁ - cfg.target| ≤ |s₂ - cfg.target| →
      calculateFitness cfg s₂ ≤ calculateFitness cfg s₁) ∧
    (|s₁ - cfg.target| < |s₂ - cfg.target| →
      calculateFitness cfg s₂ < calculateFitness cfg s₁) := by
  have habs : ∀ x : ℚ, (0:ℚ) ≤ |x - cfg.target| := fun x => abs_nonneg _
  refine ⟨fun h => ?_, fun _ => calculateFitness_eq cfg s, ?_, ?_, fun h => ?_, fun h => ?_⟩
  · simp [calculateFitness, h]
  · rw [calculateFitness_eq]
    have := habs s
    positivity
  · rw [calculateFitness_eq]
    rw [div_le_one (by linarith [habs s])]
    linarith [habs s]
  · rw [calculateFitness_eq, calculateFitness_eq]
    exact one_div_le_one_div_of_le (by linarith [habs s₁]) (by linarith)
  · rw [calculateFitness_eq, calculateFitness_eq]
    exact one_div_lt_one_div_of_lt (by linarith [habs s₁]) (by linarith)

/-- Witness for C1 at concrete inputs (`target = 42`). -/
theorem c1_fitness_function_correct_witness :
    calculateFitness DEFAULT_CONFIG 42 = 1 ∧
    calculateFitness DEFAULT_CONFIG 40 ≤ calculateFitness DEFAULT_CONFIG 41 ∧
    calculateFitness DEFAULT_CONFIG 40 < calculateFitness DEFAULT_CONFIG 41 :=
  ⟨(c1_fitness_function_correct DEFAULT_CONFIG 42 0 0).1 (by norm_num [DEFAULT_CONFIG]),
   (c1_fitness_function_correct DEFAULT_CONFIG 0 41 40).2.2.2.2.1 (by norm_num [DEFAULT_CONFIG]),
   (c1_fitness_function_correct DEFAULT_CONFIG 0 41 40).2.2.2.2.2 (by norm_num [DEFAULT_CONFIG])⟩

/-- A clone is field-for-field equal to the original agent. -/
theorem cloneAgent_eq (a : Agent) : cloneAgent a = a := rfl

/-- Agents built by `createAgentFromChromosome` are already fresh: a
re-evaluation pass does not change them. -/
theorem reEvaluate_createAgentFromChromosome (cfg : Config) (c : List Char) :
    reEvaluate cfg (createAgentFromChromosome cfg c) = createAgentFromChromosome cfg c := rfl

/-- Re-evaluation is idempotent (the chromosome is untouched). -/
theorem reEvaluate_reEvaluate (cfg : Config) (a : Agent) :
    reEvaluate cfg (reEvaluate cfg a) = reEvaluate cfg a := rfl

theorem length_initializePopulation (cfg : Config) (d : ℕ → AgentDraws) :
    (initializePopulation cfg d).length = cfg.populationSize := by
  simp [initializePopulation]

theorem length_selectElite (cfg : Config) (pop : List Agent) :
    (selectElite cfg pop).length = min cfg.elitismCount pop.length := by
  simp [selectElite]

/-- The new population built in one generation has
`max populationSize (min elitismCount |pop|)` members: the `while` loop
tops the elite up to `populationSize`, and can never shrink an oversized
elite block. -/
theorem length_buildNewPopulation (cfg : Config) (pop : List Agent) (g : GenDraws) :
    (buildNewPopulation cfg pop g).length =
      max cfg.populationSize (min cfg.elitismCount pop.length) := by
  simp [buildNewPopulation, selectElite]
  omega

/-- The first component of `evaluateFitness` is the re-evaluated
population sorted descending by fitness. -/
theorem evaluateFitness_fst (cfg : Config) (pop : List Agent) (hist : List ℚ) :
    (evaluateFitness cfg pop hist).1 =
      List.insertionSort byFitnessDesc (pop.map (reEvaluate cfg)) := rfl

theorem perm_evaluateFitness (cfg : Config) (pop : List Agent) (hist : List ℚ) :
    ((evaluateFitness cfg pop hist).1).Perm (pop.map (reEvaluate cfg)) := by
  rw [evaluateFitness_fst]
  exact List.perm_insertionSort _ _

theorem length_evaluateFitness (cfg : Config) (pop : List Agent) (hist : List ℚ) :
    (evaluateFitness cfg pop hist).1.length = pop.length := by
  simpa using (perm_evaluateFitness cfg pop hist).length_eq

theorem sorted_evaluateFitness (cfg : Config) (pop : List Agent) (hist : List ℚ) :
    List.Sorted byFitnessDesc (evaluateFitness cfg pop hist).1 := by
  rw [evaluateFitness_fst]
  exact List.sorted_insertionSort _ _

theorem randIdx_le (d n : ℕ) : randIdx d n ≤ n := by
  unfold randIdx
  split
  · omega
  · exact le_of_lt (Nat.mod_lt _ (by omega))

theorem randIdx_lt (d : ℕ) {n : ℕ} (h : 0 < n) : randIdx d n < n := by
  unfold randIdx
  split
  · omega
  · exact Nat.mod_lt _ h

/-! ## C2 -/

/-- C2: with `populationSize ≥ 1` and `elitismCount ≤ populationSize`, the
seeded population has exactly `populationSize` members, every generation
transition rebuilds a population of exactly `populationSize` members, and
every evaluation pass leaves the population sorted descending by fitness
with the best individual at position 0. -/
theorem c2_population_invariants (cfg : Config) (d : ℕ → AgentDraws) (pop : List Agent)
    (hist : List ℚ) (g : GenDraws)
    (_hpop : 1 ≤ cfg.populationSize) (helite : cfg.elitismCount ≤ cfg.populationSize)
    (hlen : pop.length = cfg.populationSize) :
    (initializePopulation cfg d).length = cfg.populationSize ∧
    (buildNewPopulation cfg pop g).length = cfg.populationSize ∧
    (evaluateFitness cfg pop hist).1.length = cfg.populationSize ∧
    List.Sorted byFitnessDesc (evaluateFitness cfg pop hist).1 ∧
    ∀ a ∈ (evaluateFitness cfg pop hist).1,
      a.fitness ≤ ((evaluateFitness cfg pop hist).1.getD 0 default).fitness := by
  refine ⟨length_initializePopulation cfg d, ?_, ?_, sorted_evaluateFitness cfg pop hist, ?_⟩
  · rw [length_buildNewPopulation]
    omega
  · rw [length_evaluateFitness, hlen]
  · have hsorted := sorted_evaluateFitness cfg pop hist
    cases hev : (evaluateFitness cfg pop hist).1 with
    | nil => intro a ha; simp at ha
    | cons b t =>
      rw [hev] at hsorted
      intro a ha
      rcases List.mem_cons.mp ha with rfl | hat
      · simp
      · simpa using List.rel_of_sorted_cons hsorted a hat

/-- Witness for C2 at a concrete configuration, population and oracle. -/
theorem c2_population_invariants_witness :
    (initializePopulation cfgW dW).length = cfgW.populationSize ∧
    (buildNewPopulation cfgW popW gW).length = cfgW.populationSize ∧
    (evaluateFitness cfgW popW []).1.length = cfgW.populationSize ∧
    List.Sorted byFitnessDesc (evaluateFitness cfgW popW []).1 ∧
    ∀ a ∈ (evaluateFitness cfgW popW []).1,
      a.fitness ≤ ((evaluateFitness cfgW popW []).1.getD 0 default).fitness :=
  c2_population_invariants cfgW dW popW [] gW (by norm_num [cfgW])
    (by norm_num [cfgW]) (by simp [popW, cfgW])

/-! ## C3 -/

/-- C3 counterexample: at parents `A = "2++2"`, `B = "1++1"` and cut points
`p1 = p2 = 0`, the two candidate children (`A[0:p1] + B[p2:] = "1++1"` and
`B[0:p2] + A[p1:] = "2++2"`) have equal fitness, and `crossover` returns
the SECOND candidate — not the first, as the claim states — and the two
candidates have different chromosomes, so the divergence is observable. -/
theorem c3_crossover_counterexample :
    (crossoverChild1 DEFAULT_CONFIG agentPlus2 agentPlus1 0 0).fitness =
      (crossoverChild2 DEFAULT_CONFIG agentPlus2 agentPlus1 0 0).fitness ∧
    crossover DEFAULT_CONFIG agentPlus2 agentPlus1 0 0 =
      crossoverChild2 DEFAULT_CONFIG agentPlus2 agentPlus1 0 0 ∧
    (crossoverChild2 DEFAULT_CONFIG agentPlus2 agentPlus1 0 0).chromosome ≠
      (crossoverChild1 DEFAULT_CONFIG agentPlus2 agentPlus1 0 0).chromosome := by
  refine ⟨?_, ?_, ?_⟩ <;>
    simp +decide [crossover, crossoverChild1, crossoverChild2, agentPlus2, agentPlus1,
      createAgentFromChromosome, calculateFitness, randIdx, DEFAULT_CONFIG,
      evaluate, cleanExpression, isAllowedChar, isDigitChar, isOperator,
      isValidExpression, parenBalanceOk, hasConsecutiveOperators]

/-- C3 (amended): `crossover` builds the two candidate children
`A[0:p1] + B[p2:]` and `B[0:p2] + A[p1:]`, scores both through the
evaluate→fitness pipeline, and returns the one with strictly higher
fitness; when the two fitness values are EQUAL it returns the second
candidate `B[0:p2] + A[p1:]`.  In all cases the returned child carries the
larger of the two fitness values. -/
theorem c3_crossover_amended (cfg : Config) (p1 p2 : Agent) (d1 d2 : ℕ) :
    ((crossoverChild2 cfg p1 p2 d1 d2).fitness < (crossoverChild1 cfg p1 p2 d1 d2).fitness →
      crossover cfg p1 p2 d1 d2 = crossoverChild1 cfg p1 p2 d1 d2) ∧
    ((crossoverChild1 cfg p1 p2 d1 d2).fitness ≤ (crossoverChild2 cfg p1 p2 d1 d2).fitness →
      crossover cfg p1 p2 d1 d2 = crossoverChild2 cfg p1 p2 d1 d2) ∧
    (crossover cfg p1 p2 d1 d2).fitness =
      max (crossoverChild1 cfg p1 p2 d1 d2).fitness
        (crossoverChild2 cfg p1 p2 d1 d2).fitness := by
  by_cases h : (crossoverChild2 cfg p1 p2 d1 d2).fitness <
      (crossoverChild1 cfg p1 p2 d1 d2).fitness
  · refine ⟨fun _ => ?_, fun hle => absurd h (not_lt.mpr hle), ?_⟩
    · simp [crossover, h]
    · simp [crossover, h, max_eq_left (le_of_lt h)]
  · have hle := not_lt.mp h
    refine ⟨fun h' => absurd h' h, fun _ => ?_, ?_⟩
    · simp [crossover, h]
    · simp [crossover, h, max_eq_right hle]

/-- Witness for the amended C3: at the equal-fitness parents the result is
the second candidate. -/
theorem c3_crossover_amended_witness :
    crossover DEFAULT_CONFIG agentPlus2 agentPlus1 0 0 =
      crossoverChild2 DEFAULT_CONFIG agentPlus2 agentPlus1 0 0 :=
  (c3_crossover_amended DEFAULT_CONFIG agentPlus2 agentPlus1 0 0).2.1 (by
    simp +decide [crossoverChild1, crossoverChild2, agentPlus2, agentPlus1,
      createAgentFromChromosome, calculateFitness, randIdx, DEFAULT_CONFIG,
      evaluate, cleanExpression, isAllowedChar, isDigitChar, isOperator,
      isValidExpression, parenBalanceOk, hasConsecutiveOperators])

/-! ## C4 -/

/-- C4 (code bug): with draws length = 3 and digit, digit, operator, random
generation returns the chromosome `"12+"`, which ENDS WITH AN OPERATOR.
The source's trailing fix-up `if (expectingOperator) equation += digit`
appends its guard digit when the chromosome already ends with a digit and
appends nothing after a trailing operator — the inverse of its own comment
`// Ensure it ends with a digit`. -/
theorem c4_generation_can_end_with_operator :
    generateRandomEquation DEFAULT_CONFIG ⟨0, c4OpDraw, c4CharDraw⟩ = ['1', '2', '+'] ∧
    (generateRandomEquation DEFAULT_CONFIG ⟨0, c4OpDraw, c4CharDraw⟩).getLast? = some '+' ∧
    isOperator '+' = true := by
  refine ⟨?_, ?_, rfl⟩ <;>
    simp +decide [generateRandomEquation, genChars, randIdx, DEFAULT_CONFIG,
      c4OpDraw, c4CharDraw, operators, digits]

/-! ## C5 -/

/-- C5 counterexample: on the length-3 chromosome `"1+2"` with the delete
branch drawn (`mutationType = 0.7 ≥ 0.66`), `mutate` applies NO operation —
the chromosome is returned unchanged — refuting "every mutation call
applies exactly one operation". -/
theorem c5_mutation_counterexample :
    agent13.chromosome.length = 3 ∧
    mutateAppliedOp agent13 mutDelDraws = none ∧
    (mutate DEFAULT_CONFIG agent13 mutDelDraws).chromosome = agent13.chromosome := by
  refine ⟨?_, ?_, ?_⟩ <;>
    ·  simp +decide [agent13, mutDelDraws, mutate, mutateChromosome, mutateAppliedOp,
        createAgentFromChromosome, calculateFitness, randIdx, DEFAULT_CONFIG,
        evaluate, cleanExpression, isAllowedChar, isDigitChar, isOperator,
        isValidExpression, parenBalanceOk, hasConsecutiveOperators, parseEval,
        tokenize, tokenizeAux, parseE, parseESfx, parseT, parseTSfx, parseA]
       try norm_num

/-- C5 (amended): a mutation call applies AT MOST one operation — exactly
one unless the delete branch is drawn on a chromosome of length ≤ 3, in
which case the chromosome is unchanged; each applied operation changes the
length as expected, and in every case the stored `solution` and `fitness`
are recomputed from the new chromosome via the evaluator and the fitness
function (no stale fitness). -/
theorem c5_mutation_amended (cfg : Config) (a : Agent) (d : MutDraws) :
    ((mutateAppliedOp a d).isSome ↔ d.typeDraw < 66/100 ∨ 3 < a.chromosome.length) ∧
    (mutateAppliedOp a d = none → (mutate cfg a d).chromosome = a.chromosome) ∧
    (mutate cfg a d).solution = (evaluate (mutate cfg a d).chromosome).getD 0 ∧
    (mutate cfg a d).fitness = calculateFitness cfg (mutate cfg a d).solution ∧
    (mutateAppliedOp a d = some .substitute →
      (mutate cfg a d).chromosome.length = a.chromosome.length) ∧
    (mutateAppliedOp a d = some .insert →
      (mutate cfg a d).chromosome.length = a.chromosome.length + 1) ∧
    (mutateAppliedOp a d = some .delete →
      (mutate cfg a d).chromosome.length + 1 = a.chromosome.length) := by
  have hchr : (mutate cfg a d).chromosome = mutateChromosome a.chromosome d := rfl
  by_cases h1 : d.typeDraw < 33/100
  · refine ⟨by simp [mutateAppliedOp, h1]; left; linarith, ?_, rfl, rfl, fun _ => ?_, ?_, ?_⟩
    · intro hn; simp [mutateAppliedOp, h1] at hn
    · rw [hchr]; simp [mutateChromosome, h1]
    · intro hn; simp [mutateAppliedOp, h1] at hn
    · intro hn; simp [mutateAppliedOp, h1] at hn
  · by_cases h2 : d.typeDraw < 66/100
    · refine ⟨by simp [mutateAppliedOp, h1, h2], ?_, rfl, rfl, ?_, fun _ => ?_, ?_⟩
      · intro hn; simp [mutateAppliedOp, h1, h2] at hn
      · intro hn; simp [mutateAppliedOp, h1, h2] at hn
      · rw [hchr]
        simp only [mutateChromosome, if_neg h1, if_pos h2]
        exact List.length_insertIdx _ _ (randIdx_le _ _)
      · intro hn; simp [mutateAppliedOp, h1, h2] at hn
    · by_cases h3 : 3 < a.chromosome.length
      · refine ⟨by simp [mutateAppliedOp, h1, h2, h3], ?_, rfl, rfl, ?_, ?_, fun _ => ?_⟩
        · intro hn; simp [mutateAppliedOp, h1, h2, h3] at hn
        · intro hn; simp [mutateAppliedOp, h1, h2, h3] at hn
        · intro hn; simp [mutateAppliedOp, h1, h2, h3] at hn
        · rw [hchr]
          simp only [mutateChromosome, if_neg h1, if_neg h2, if_pos h3]
          rw [List.length_eraseIdx _ _]
          have := randIdx_lt d.idxDraw (n := a.chromosome.length) (by omega)
          simp [this]
          omega
      · refine ⟨by simp [mutateAppliedOp, h1, h2, h3, not_lt.mp h2], fun _ => ?_, rfl, rfl,
          ?_, ?_, ?_⟩
        · rw [hchr]; simp [mutateChromosome, h1, h2, h3]
        · intro hn; simp [mutateAppliedOp, h1, h2, h3] at hn
        · intro hn; simp [mutateAppliedOp, h1, h2, h3] at hn
        · intro hn; simp [mutateAppliedOp, h1, h2, h3] at hn

/-- Witness for the amended C5: the substitute branch preserves the
chromosome length. -/
theorem c5_mutation_amended_witness :
    (mutate DEFAULT_CONFIG agent13 mutSubDraws).chromosome.length =
      agent13.chromosome.length :=
  (c5_mutation_amended DEFAULT_CONFIG agent13 mutSubDraws).2.2.2.2.1 (by
    norm_num [mutateAppliedOp, mutSubDraws])

/-! ## C6 -/

/-- In a descending-sorted rational list, entries at later positions are
no larger. -/
theorem sorted_desc_getD_le (l : List ℚ) (hl : List.Sorted (fun x y : ℚ => y ≤ x) l)
    {i j : ℕ} (hij : i ≤ j) (hj : j < l.length) : l.getD j 0 ≤ l.getD i 0 := by
  rcases eq_or_lt_of_le hij with rfl | hlt
  · exact le_refl _
  · rw [List.getD_eq_getElem _ _ hj, List.getD_eq_getElem _ _ (lt_of_le_of_lt hij hj)]
    exact hl.rel_get_of_lt (a := ⟨i, lt_of_le_of_lt hij hj⟩) (b := ⟨j, hj⟩) hlt

/-- `Subperm` is preserved by `map`. -/
theorem subperm_map (f : α → β) {l₁ l₂ : List α} (h : l₁.Subperm l₂) :
    (l₁.map f).Subperm (l₂.map f) := by
  obtain ⟨l, h1, h2⟩ := h
  exact ⟨l.map f, h1.map f, h2.map f⟩

/-- Rank-domination: if a descending-sorted list `l` contains (as a
sub-multiset) a descending-sorted list `s`, then at every rank `i` of `s`
the entry of `l` dominates the entry of `s`. -/
theorem rank_le_of_subperm_sorted (s l : List ℚ)
    (hs : List.Sorted (fun x y : ℚ => y ≤ x) s)
    (hl : List.Sorted (fun x y : ℚ => y ≤ x) l)
    (hsub : s.Subperm l) {i : ℕ} (hi : i < s.length) :
    s.getD i 0 ≤ l.getD i 0 := by
  set v := s.getD i 0 with hv
  set p : ℚ → Bool := fun x => decide (v ≤ x) with hp
  have hil : i < l.length := lt_of_lt_of_le hi hsub.length_le
  by_contra hcon
  push_neg at hcon
  rw [List.getD_eq_getElem _ _ hil] at hcon
  -- Every element of `l` at position ≥ i is < v, so `l` has at most `i`
  -- elements ≥ v.
  have hdrop : (l.drop i).countP p = 0 := by
    rw [List.countP_eq_zero]
    intro a ha
    obtain ⟨j, hj, rfl⟩ := List.mem_iff_getElem.mp ha
    rw [List.getElem_drop]
    have hij : i ≤ i + j := Nat.le_add_right i j
    have hlt : i + j < l.length := by
      have := List.length_drop i l ▸ hj
      omega
    have hle : l.getD (i + j) 0 ≤ l.getD i 0 := sorted_desc_getD_le l hl hij hlt
    rw [List.getD_eq_getElem _ _ hlt, List.getD_eq_getElem _ _ hil] at hle
    simp only [hp, decide_eq_true_eq]
    push_neg
    exact lt_of_le_of_lt hle hcon
  have hcount_l : l.countP p ≤ i := by
    have hsplit : l.countP p = (l.take i).countP p + (l.drop i).countP p := by
      rw [← List.countP_append, List.take_append_drop]
    have htake : (l.take i).countP p ≤ i := by
      calc (l.take i).countP p ≤ (l.take i).length := List.countP_le_length p
        _ ≤ i := by rw [List.length_take]; omega
    omega
  -- But the first i+1 elements of `s` are all ≥ v.
  have hcount_s : i + 1 ≤ s.countP p := by
    have hall : (s.take (i + 1)).countP p = (s.take (i + 1)).length := by
      rw [List.countP_eq_length]
      intro a ha
      obtain ⟨j, hj, rfl⟩ := List.mem_iff_getElem.mp ha
      have hjs : j < s.length := by
        have := List.length_take (i + 1) s ▸ hj
        simp at this
        omega
      rw [List.getElem_take]
      have hji : j ≤ i := by
        have := List.length_take (i + 1) s ▸ hj
        simp at this
        omega
      have hle : s.getD i 0 ≤ s.getD j 0 := sorted_desc_getD_le s hs hji hi
      rw [List.getD_eq_getElem _ _ hi, List.getD_eq_getElem _ _ hjs] at hle
      simp only [hp, decide_eq_true_eq]
      exact le_trans (le_of_eq (by rw [hv, List.getD_eq_getElem _ _ hi])) hle
    have hlen1 : (s.take (i + 1)).length = i + 1 := by
      rw [List.length_take]
      omega
    have : (s.take (i + 1)).countP p ≤ s.countP p :=
      ((List.take_sublist (i + 1) s).subperm).countP_le p
    omega
  have := hsub.countP_le p
  omega

/-- Fitness projection of a fitness-sorted agent list is a sorted rational
list. -/
theorem sorted_fitness_map {l : List Agent} (h : List.Sorted byFitnessDesc l) :
    List.Sorted (fun x y : ℚ => y ≤ x) (l.map Agent.fitness) :=
  List.Pairwise.map _ (fun _ _ hab => hab) h

theorem getD_map_fitness {l : List Agent} {i : ℕ} (h : i < l.length) :
    (l.map Agent.fitness).getD i 0 = (l.getD i default).fitness := by
  rw [List.getD_eq_getElem _ _ (by simpa using h), List.getD_eq_getElem _ _ h,
    List.getElem_map]

/-- C6: for a sorted, freshly evaluated population of exactly
`populationSize` agents, one full generation transition (build new
population, re-evaluate, re-sort) does not decrease the fitness at any
elite rank `i < elitismCount`; moreover the elite block placed into the
new generation consists of `cloneAgent` copies of the top agents, and a
clone is a field-for-field copy. -/
theorem c6_elitism (cfg : Config) (pop : List Agent) (g : GenDraws) (hist : List ℚ)
    (i : ℕ)
    (hsorted : List.Sorted byFitnessDesc pop)
    (hfresh : ∀ a ∈ pop, reEvaluate cfg a = a)
    (hlen : pop.length = cfg.populationSize)
    (helite : cfg.elitismCount ≤ cfg.populationSize)
    (hi : i < cfg.elitismCount) :
    (pop.getD i default).fitness ≤
      (((evaluateFitness cfg (buildNewPopulation cfg pop g) hist).1).getD i default).fitness ∧
    selectElite cfg pop = (pop.take cfg.elitismCount).map cloneAgent ∧
    ∀ a : Agent, cloneAgent a = a := by
  refine ⟨?_, rfl, cloneAgent_eq⟩
  set k := cfg.elitismCount with hk
  set newSorted := (evaluateFitness cfg (buildNewPopulation cfg pop g) hist).1 with hnew
  have hklen : k ≤ pop.length := by omega
  have hsel : selectElite cfg pop = pop.take k := by
    unfold selectElite
    rw [show cloneAgent = id from funext cloneAgent_eq, List.map_id]
  have hmapre : (pop.take k).map (reEvaluate cfg) = pop.take k := by
    have h1 : ∀ a ∈ pop.take k, reEvaluate cfg a = a := fun a ha =>
      hfresh a ((List.take_sublist k pop).subset ha)
    calc (pop.take k).map (reEvaluate cfg) = (pop.take k).map id :=
        List.map_congr_left h1
      _ = pop.take k := List.map_id _
  have hrest : (buildNewPopulation cfg pop g).map (reEvaluate cfg) =
      pop.take k ++ (((List.range (cfg.populationSize - (pop.take k).length)).map
        fun j => makeOffspring cfg pop (g.off j)).map (reEvaluate cfg)) := by
    simp only [buildNewPopulation, hsel, List.map_append]
    rw [hmapre]
  have hsub : (pop.take k).Subperm newSorted := by
    have hsubl : (pop.take k).Sublist ((buildNewPopulation cfg pop g).map (reEvaluate cfg)) := by
      rw [hrest]
      exact List.sublist_append_left _ _
    have hperm : ((buildNewPopulation cfg pop g).map (reEvaluate cfg)).Perm newSorted :=
      (perm_evaluateFitness cfg _ hist).symm
    exact hsubl.subperm.trans hperm.subperm
  have hi' : i < (pop.take k).length := by
    rw [List.length_take]
    omega
  have hilen : i < newSorted.length := by
    rw [hnew, length_evaluateFitness, length_buildNewPopulation]
    omega
  have hrank := rank_le_of_subperm_sorted
    ((pop.take k).map Agent.fitness) (newSorted.map Agent.fitness)
    (sorted_fitness_map (List.Pairwise.sublist (List.take_sublist k pop) hsorted))
    (sorted_fitness_map (hnew ▸ sorted_evaluateFitness cfg (buildNewPopulation cfg pop g) hist))
    (subperm_map Agent.fitness hsub) (i := i) (by simpa using hi')
  rw [getD_map_fitness hi', getD_map_fitness hilen] at hrank
  have htake : (pop.take k).getD i default = pop.getD i default := by
    rw [List.getD_eq_getElem _ _ hi', List.getD_eq_getElem _ _ (by omega : i < pop.length),
      List.getElem_take]
  rw [htake] at hrank
  exact hrank

/-- Witness for C6 at the concrete two-agent sorted population. -/
theorem c6_elitism_witness :
    (popW.getD 0 default).fitness ≤
      (((evaluateFitness cfgW (buildNewPopulation cfgW popW gW) []).1).getD 0 default).fitness :=
  (c6_elitism cfgW popW gW [] 0
    (by
      simp +decide [popW, List.sorted_cons, byFitnessDesc, createAgentFromChromosome,
        calculateFitness, cfgW, evaluate, cleanExpression, isAllowedChar, isDigitChar,
        isOperator, isValidExpression, parenBalanceOk, hasConsecutiveOperators, parseEval,
        tokenize, tokenizeAux, parseE, parseESfx, parseT, parseTSfx, parseA]
      try norm_num)
    (by simp [popW, reEvaluate_createAgentFromChromosome])
    (by simp [popW, cfgW])
    (by norm_num [cfgW])
    (by norm_num [cfgW])).1

/-! ## C7 -/

/-- Cleaning keeps two adjacent kept characters adjacent. -/
theorem cleanExpression_append (pre post : List Char) (a b : Char)
    (ha : isAllowedChar a = true) (hb : isAllowedChar b = true) :
    cleanExpression (pre ++ a :: b :: post) =
      cleanExpression pre ++ a :: b :: cleanExpression post := by
  simp [cleanExpression, ha, hb]

/-- A string with two adjacent operator characters anywhere trips the
consecutive-operator test. -/
theorem hasConsecutiveOperators_append (pre post : List Char) (a b : Char)
    (ha : isOperator a = true) (hb : isOperator b = true) :
    hasConsecutiveOperators (pre ++ a :: b :: post) = true := by
  induction pre with
  | nil => simp [hasConsecutiveOperators, ha, hb]
  | cons c cs ih =>
    cases cs with
    | nil =>
      simp only [List.cons_append, List.nil_append] at ih ⊢
      simp [hasConsecutiveOperators, ha, hb]
    | cons d ds =>
      simp only [List.cons_append] at ih ⊢
      simp [hasConsecutiveOperators, ih]

/-- The evaluator rejects every string containing two adjacent operator
characters: they survive cleaning adjacent, and `isValidExpression` then
fails. -/
theorem evaluate_eq_none_of_consecutive_ops (pre post : List Char) (a b : Char)
    (ha : isOperator a = true) (hb : isOperator b = true) :
    evaluate (pre ++ a :: b :: post) = none := by
  have hallow : ∀ c : Char, isOperator c = true → isAllowedChar c = true := by
    intro c hc
    simp [isAllowedChar, hc]
  have hclean := cleanExpression_append pre post a b (hallow a ha) (hallow b hb)
  have hcons : hasConsecutiveOperators (cleanExpression (pre ++ a :: b :: post)) = true := by
    rw [hclean]
    exact hasConsecutiveOperators_append _ _ _ _ ha hb
  have hval : isValidExpression (cleanExpression (pre ++ a :: b :: post)) = false := by
    unfold isValidExpression
    split
    · rfl
    · rw [hcons]
      simp
  simp [evaluate, hval]

/-- C7: whenever the evaluator rejects a chromosome (in particular any
string containing two consecutive operator characters), the agent built
from it never propagates an error: its `solution` is `0` and its `fitness`
is the normally computed value `1 / (1 + |0 - target|)`. -/
theorem c7_invalid_chromosome_handling (cfg : Config) (chr pre post : List Char)
    (a b : Char) :
    (evaluate chr = none →
      (createAgentFromChromosome cfg chr).solution = 0 ∧
      (createAgentFromChromosome cfg chr).fitness = 1 / (1 + |0 - cfg.target|)) ∧
    (isOperator a = true → isOperator b = true →
      evaluate (pre ++ a :: b :: post) = none) := by
  constructor
  · intro h
    constructor
    · simp [createAgentFromChromosome, h]
    · simp [createAgentFromChromosome, h, calculateFitness_eq]
  · exact evaluate_eq_none_of_consecutive_ops pre post a b

/-- Witness for C7 at the spec's scenario chromosome `"5//2"`. -/
theorem c7_invalid_chromosome_handling_witness :
    evaluate ['5', '/', '/', '2'] = none ∧
    (createAgentFromChromosome DEFAULT_CONFIG ['5', '/', '/', '2']).solution = 0 ∧
    (createAgentFromChromosome DEFAULT_CONFIG ['5', '/', '/', '2']).fitness =
      1 / (1 + |0 - DEFAULT_CONFIG.target|) := by
  have hnone : evaluate ['5', '/', '/', '2'] = none :=
    (c7_invalid_chromosome_handling DEFAULT_CONFIG [] ['5'] ['2'] '/' '/').2 (by decide)
      (by decide)
  have h2 := (c7_invalid_chromosome_handling DEFAULT_CONFIG ['5', '/', '/', '2']
    [] [] '+' '+').1 hnone
  exact ⟨hnone, h2.1, h2.2⟩

/-! ## C8 -/

/-- A generation transition never yields an empty population when
`populationSize ≥ 1`. -/
theorem stepped_ne_nil (cfg : Config) (pop : List Agent) (g : GenDraws) (hist : List ℚ)
    (hpop : 1 ≤ cfg.populationSize) :
    (evaluateFitness cfg (buildNewPopulation cfg pop g) hist).1 ≠ [] := by
  intro hnil
  have h1 := length_evaluateFitness cfg (buildNewPopulation cfg pop g) hist
  rw [hnil, length_buildNewPopulation] at h1
  simp at h1
  omega

/-- The seeded, evaluated population is nonempty when
`populationSize ≥ 1`. -/
theorem seeded_ne_nil (cfg : Config) (rd : RunDraws) (hpop : 1 ≤ cfg.populationSize) :
    (evaluateFitness cfg (initializePopulation cfg rd.init) []).1 ≠ [] := by
  intro hnil
  have h1 := length_evaluateFitness cfg (initializePopulation cfg rd.init) []
  rw [hnil, length_initializePopulation] at h1
  simp at h1
  omega

/-- The evolution loop always returns an agent (never `null`) as long as
the population is nonempty and `populationSize ≥ 1`. -/
theorem evolveLoop_fst_ne_none (cfg : Config) (d : ℕ → GenDraws) (fuel : ℕ) :
    ∀ (g : ℕ) (pop : List Agent) (hist : List ℚ), pop ≠ [] → 1 ≤ cfg.populationSize →
      (evolveLoop cfg d fuel g pop hist).1 ≠ none := by
  induction fuel with
  | zero =>
    intro g pop hist hne _
    simp only [evolveLoop]
    simpa using hne
  | succ n ih =>
    intro g pop hist hne hpop
    obtain ⟨b, t, rfl⟩ := List.exists_cons_of_ne_nil hne
    by_cases hb : (99:ℚ)/100 ≤ b.fitness
    · simp [evolveLoop, hb]
    · simp only [evolveLoop, if_neg hb]
      exact ih (g + 1) _ _ (stepped_ne_nil cfg (b :: t) (d g) hist hpop) hpop

/-- `evolve` returns an agent whenever `populationSize ≥ 1`. -/
theorem evolve_fst_ne_none (cfg : Config) (rd : RunDraws) (hpop : 1 ≤ cfg.populationSize) :
    (evolve cfg rd).1 ≠ none :=
  evolveLoop_fst_ne_none cfg rd.gen cfg.maxGenerations 0 _ _
    (seeded_ne_nil cfg rd hpop) hpop

/-- C8 counterexample: with `maxGenerations = 0` and one individual the
run returns the seeded best agent, NOT a "no solution" signal, refuting
the claim's "no solution signal when maxGenerations == 0". -/
theorem c8_termination_counterexample :
    cfgC8.maxGenerations = 0 ∧ (evolve cfgC8 rdW).1 ≠ none := by
  refine ⟨rfl, ?_⟩
  have h1 : 1 ≤ cfgC8.populationSize := by norm_num [cfgC8, DEFAULT_CONFIG]
  have hne := seeded_ne_nil cfgC8 rdW h1
  have hev : (evolve cfgC8 rdW).1 =
      (evaluateFitness cfgC8 (initializePopulation cfgC8 rdW.init) []).1.head? := rfl
  rw [hev]
  simpa using hne

/-- C8 (amended): the loop's terminal behaviour exactly as the source has
it — immediate return of `population[0]` once its fitness reaches `0.99`;
fall-through to `population[0]` (the best agent) when the generation
budget is exhausted; one generation transition otherwise; and the "no
solution" (`null`) result can only arise from an empty population, never
merely because `maxGenerations == 0`: with `populationSize ≥ 1` the run
always returns an agent. -/
theorem c8_termination_amended (cfg : Config) (d : ℕ → GenDraws) (rd : RunDraws)
    (fuel g : ℕ) (best : Agent) (rest : List Agent) (hist : List ℚ) :
    (evolveLoop cfg d 0 g (best :: rest) hist = (some best, hist, best :: rest)) ∧
    (99/100 ≤ best.fitness →
      evolveLoop cfg d (fuel + 1) g (best :: rest) hist = (some best, hist, best :: rest)) ∧
    (best.fitness < 99/100 →
      evolveLoop cfg d (fuel + 1) g (best :: rest) hist =
        evolveLoop cfg d fuel (g + 1)
          (evaluateFitness cfg (buildNewPopulation cfg (best :: rest) (d g)) hist).1
          (evaluateFitness cfg (buildNewPopulation cfg (best :: rest) (d g)) hist).2) ∧
    (1 ≤ cfg.populationSize → (evolve cfg rd).1 ≠ none) := by
  refine ⟨by simp [evolveLoop], fun hb => by simp [evolveLoop, hb], fun hb => ?_,
    fun hpop => evolve_fst_ne_none cfg rd hpop⟩
  simp only [evolveLoop, if_neg (not_le.mpr hb)]

/-- Witness for the amended C8. -/
theorem c8_termination_amended_witness :
    (evolve cfgC8 rdW).1 ≠ none :=
  (c8_termination_amended cfgC8 rdW.gen rdW 0 0 default [] []).2.2.2
    (by norm_num [cfgC8, DEFAULT_CONFIG])

/-! ## C9 -/

/-- A run's seeded population is fixed by re-evaluation: random agents are
created already evaluated. -/
theorem map_reEvaluate_initializePopulation (cfg : Config) (d : ℕ → AgentDraws) :
    (initializePopulation cfg d).map (reEvaluate cfg) = initializePopulation cfg d := by
  simp only [initializePopulation, List.map_map]
  exact List.map_congr_left fun i _ => rfl

/-- One evaluation pass on a nonempty population appends exactly one entry
to the fitness history. -/
theorem length_history_evaluateFitness (cfg : Config) (pop : List Agent) (hist : List ℚ)
    (hne : pop ≠ []) :
    (evaluateFitness cfg pop hist).2.length = hist.length + 1 := by
  have hsne : List.insertionSort byFitnessDesc (pop.map (reEvaluate cfg)) ≠ [] := by
    intro h
    have hlen := (List.perm_insertionSort byFitnessDesc (pop.map (reEvaluate cfg))).length_eq
    rw [h] at hlen
    simp at hlen
    exact hne (List.length_eq_zero.mp (by omega))
  have hsnd : (evaluateFitness cfg pop hist).2 =
      match List.insertionSort byFitnessDesc (pop.map (reEvaluate cfg)) with
      | [] => hist
      | best :: _ => hist ++ [best.fitness] := rfl
  rw [hsnd]
  cases hs : List.insertionSort byFitnessDesc (pop.map (reEvaluate cfg)) with
  | nil => exact absurd hs hsne
  | cons b t => simp

/-- C9: with `maxGenerations = 0` and `populationSize ≥ 1`, the run
returns a best individual of the initial seeded population without
executing any generation transition (the final population IS the
evaluated seeded population), and the fitness history holds exactly one
entry. -/
theorem c9_zero_generations (cfg : Config) (rd : RunDraws)
    (h0 : cfg.maxGenerations = 0) (h1 : 1 ≤ cfg.populationSize) :
    (evolve cfg rd).2.2 = (evaluateFitness cfg (initializePopulation cfg rd.init) []).1 ∧
    (evolve cfg rd).2.1.length = 1 ∧
    ∃ b, (evolve cfg rd).1 = some b ∧
      b ∈ initializePopulation cfg rd.init ∧
      ∀ a ∈ initializePopulation cfg rd.init, a.fitness ≤ b.fitness := by
  have hinitne : initializePopulation cfg rd.init ≠ [] := by
    intro h
    have := length_initializePopulation cfg rd.init
    rw [h] at this
    simp at this
    omega
  have hev : evolve cfg rd =
      ((evaluateFitness cfg (initializePopulation cfg rd.init) []).1.head?,
       (evaluateFitness cfg (initializePopulation cfg rd.init) []).2,
       (evaluateFitness cfg (initializePopulation cfg rd.init) []).1) := by
    unfold evolve
    rw [h0]
    rfl
  have hsne := seeded_ne_nil cfg rd h1
  have hperm : ((evaluateFitness cfg (initializePopulation cfg rd.init) []).1).Perm
      (initializePopulation cfg rd.init) := by
    have := perm_evaluateFitness cfg (initializePopulation cfg rd.init) []
    rwa [map_reEvaluate_initializePopulation] at this
  refine ⟨by rw [hev], ?_, ?_⟩
  · rw [hev]
    exact length_history_evaluateFitness cfg (initializePopulation cfg rd.init) [] hinitne
  · obtain ⟨b, t, hbt⟩ := List.exists_cons_of_ne_nil hsne
    refine ⟨b, by rw [hev]; simp [hbt], ?_, ?_⟩
    · exact hperm.subset (hbt ▸ List.mem_cons_self b t)
    · intro a ha
      have ha' : a ∈ (evaluateFitness cfg (initializePopulation cfg rd.init) []).1 :=
        hperm.symm.subset ha
      have hsorted := sorted_evaluateFitness cfg (initializePopulation cfg rd.init) []
      rw [hbt] at hsorted ha'
      rcases List.mem_cons.mp ha' with rfl | hat
      · exact le_refl _
      · exact List.rel_of_sorted_cons hsorted a hat

/-- Witness for C9 at the concrete zero-generation run. -/
theorem c9_zero_generations_witness :
    (evolve cfgC8 rdW).2.1.length = 1 :=
  (c9_zero_generations cfgC8 rdW rfl (by norm_num [cfgC8, DEFAULT_CONFIG])).2.1

/-! ## C10 -/

/-- C10 counterexample: the constructor accepts a configuration violating
the §3 invariants (`elitismCount ≥ populationSize`, `mutationRate > 1`,
`tournamentSize > populationSize`) and the run proceeds to a normal
result — it is not aborted and no rejection is surfaced. -/
theorem c10_no_validation_counterexample :
    mergeConfig badPartialConfig = badConfig ∧
    badConfig.populationSize ≤ badConfig.elitismCount ∧
    1 < badConfig.mutationRate ∧
    badConfig.populationSize < badConfig.tournamentSize ∧
    (evolve badConfig rdW).1 ≠ none := by
  refine ⟨rfl, by norm_num [badConfig], by norm_num [badConfig], by norm_num [badConfig],
    evolve_fst_ne_none badConfig rdW (by norm_num [badConfig])⟩

/-- C10 (amended): the constructor performs no configuration validation:
it merges the supplied partial configuration field-wise with the defaults
and the run proceeds regardless of the §3 invariants — there is no
abort-before-start path (a run with `populationSize ≥ 1` always returns
an agent). -/
theorem c10_no_validation_amended (p : PartialConfig) (rd : RunDraws) :
    (mergeConfig p).populationSize = p.populationSize.getD 50 ∧
    (mergeConfig p).target = p.target.getD 42 ∧
    (mergeConfig p).maxGenerations = p.maxGenerations.getD 1000 ∧
    (mergeConfig p).mutationRate = p.mutationRate.getD (1/10) ∧
    (mergeConfig p).crossoverRate = p.crossoverRate.getD (7/10) ∧
    (mergeConfig p).elitismCount = p.elitismCount.getD 5 ∧
    (mergeConfig p).tournamentSize = p.tournamentSize.getD 3 ∧
    (mergeConfig p).maxEquationLength = p.maxEquationLength.getD 20 ∧
    (1 ≤ (mergeConfig p).populationSize → (evolve (mergeConfig p) rd).1 ≠ none) :=
  ⟨rfl, rfl, rfl, rfl, rfl, rfl, rfl, rfl, fun h => evolve_fst_ne_none _ rd h⟩

/-- Witness for the amended C10 at the invariant-violating concrete
configuration. -/
theorem c10_no_validation_amended_witness :
    (evolve (mergeConfig badPartialConfig) rdW).1 ≠ none :=
  (c10_no_validation_amended badPartialConfig rdW).2.2.2.2.2.2.2.2
    (by norm_num [mergeConfig, badPartialConfig])

end EvolvingEquation
